import Mathlib

/-!
Formal model of the Changelog streak contracts.

The definitions below are a shallow embedding of the two core contracts:

* `StreakTracker` (contracts/src/StreakTracker.sol) — the per-identity streak
  ledger: `recordShip`, the read-only queries, and the resolver allow-list.
* `ShipResolver` (embedded in contracts/script/RegisterSchemas.s.sol) — the
  EAS attestation gate: `onAttest` validation, the 24-hour throttle, and
  `onRevoke`.

Modelling conventions:

* `uint256`, `address` and `bytes32` values are modelled as `Nat`.  Overflow
  of `+ 1` on streak counters cannot change any statement proved here (the
  corresponding Solidity 0.8 operation would revert, shrinking the set of
  successful calls), so counters are plain `Nat`.
* Solidity mappings are total functions with the zero value as default.
* A reverting call is `.error e`; by EVM semantics a revert discards every
  write of the transaction, so an `.error` result leaves the pre-state as
  the state.  Successful calls return the post-state plus the emitted events.
* `block.timestamp` is an explicit argument (`currentTime` / `queryTime` /
  `now`).  Solidity's checked subtraction `block.timestamp - last` reverts
  when `last > block.timestamp`; on chain this cannot happen because `last`
  was itself an earlier `block.timestamp`, and theorems about the read path
  carry the corresponding hypothesis `last ≤ queryTime`.
* The string `text` of a ship is modelled by its byte sequence
  (`List Nat`), since the contract only ever inspects `bytes(text).length`.
-/

namespace Changelog

/-- `ONE_DAY = 24 hours` (seconds), StreakTracker.sol line 13. -/
def ONE_DAY : Nat := 86400

/-- Epoch day of a timestamp: `t / ONE_DAY` (fixed UTC boundaries). -/
def dayOf (t : Nat) : Nat := t / ONE_DAY

/-- struct `UserStreakData` (StreakTracker.sol lines 22–28). -/
structure UserStreakData where
  currentStreak : Nat
  longestStreak : Nat
  totalShips : Nat
  lastShipTimestamp : Nat
  shipUIDs : List Nat
  deriving Repr, DecidableEq

/-- The zero value of `UserStreakData`: what `userData[fid]` reads before the
first write (Solidity mapping default). -/
def UserStreakData.initial : UserStreakData :=
  { currentStreak := 0, longestStreak := 0, totalShips := 0
    lastShipTimestamp := 0, shipUIDs := [] }

/-- Storage of the `StreakTracker` contract: the owner (from `Ownable`), the
`userData` mapping and the `authorizedResolvers` mapping. -/
structure TrackerState where
  owner : Nat
  userData : Nat → UserStreakData
  authorizedResolvers : Nat → Bool

/-- `StreakTracker` state right after the constructor: empty mappings and the
given owner. -/
def TrackerState.initial (initialOwner : Nat) : TrackerState :=
  { owner := initialOwner
    userData := fun _ => UserStreakData.initial
    authorizedResolvers := fun _ => false }

/-- Errors (reverts) of the two contracts.  `Unauthorized` is the `Ownable`
revert of `onlyOwner`. -/
inductive TrackerError where
  | UnauthorizedResolver
  | AlreadyShippedToday
  | InvalidFID
  | InvalidAttestationUID
  | Unauthorized
  deriving Repr, DecidableEq

/-- Events emitted by the contracts. -/
inductive Event where
  | ShipRecorded (fid attestationUID timestamp currentStreak : Nat)
  | StreakBroken (fid previousStreak lastShipTimestamp : Nat)
  | ResolverAuthorizationChanged (resolver : Nat) (authorized : Bool)
  | ShipCreated (fid attestationUID projectRefUID timestamp : Nat)
  deriving Repr, DecidableEq

/-- `_isSameDay` (StreakTracker.sol lines 236–241): both timestamps fall in
the same epoch day. -/
def _isSameDay (timestamp1 timestamp2 : Nat) : Prop :=
  timestamp1 / ONE_DAY = timestamp2 / ONE_DAY

instance (t1 t2 : Nat) : Decidable (_isSameDay t1 t2) := by
  unfold _isSameDay; infer_instance

/-- `_isConsecutiveDay` (StreakTracker.sol lines 247–254): `timestamp2` is in
the epoch day right after `timestamp1`'s. -/
def _isConsecutiveDay (timestamp1 timestamp2 : Nat) : Prop :=
  timestamp2 / ONE_DAY = timestamp1 / ONE_DAY + 1

instance (t1 t2 : Nat) : Decidable (_isConsecutiveDay t1 t2) := by
  unfold _isConsecutiveDay; infer_instance

/-- The state update block of `recordShip` (StreakTracker.sol lines 119–128):
store the new streak, bump `totalShips`, set `lastShipTimestamp`, push the
attestation UID, and raise `longestStreak` if the new streak beats it. -/
def applyShip (st : TrackerState) (fid attestationUID currentTime newStreak : Nat) :
    TrackerState :=
  let user := st.userData fid
  let user' : UserStreakData :=
    { currentStreak := newStreak
      longestStreak :=
        if newStreak > user.longestStreak then newStreak else user.longestStreak
      totalShips := user.totalShips + 1
      lastShipTimestamp := currentTime
      shipUIDs := user.shipUIDs ++ [attestationUID] }
  { st with userData := fun x => if x = fid then user' else st.userData x }

/-- `recordShip` (StreakTracker.sol lines 84–131), with `msg.sender` and
`block.timestamp` explicit.  Returns the post-state and the emitted events,
or the revert error. -/
def recordShip (st : TrackerState) (sender fid attestationUID currentTime : Nat) :
    Except TrackerError (TrackerState × List Event) :=
  if ¬ st.authorizedResolvers sender then .error .UnauthorizedResolver
  else if fid = 0 then .error .InvalidFID
  else if attestationUID = 0 then .error .InvalidAttestationUID
  else
    let user := st.userData fid
    if 0 < user.lastShipTimestamp ∧ _isSameDay user.lastShipTimestamp currentTime then
      .error .AlreadyShippedToday
    else if user.lastShipTimestamp = 0 then
      .ok (applyShip st fid attestationUID currentTime 1,
        [Event.ShipRecorded fid attestationUID currentTime 1])
    else if _isConsecutiveDay user.lastShipTimestamp currentTime then
      .ok (applyShip st fid attestationUID currentTime (user.currentStreak + 1),
        [Event.ShipRecorded fid attestationUID currentTime (user.currentStreak + 1)])
    else if _isSameDay user.lastShipTimestamp currentTime then
      .error .AlreadyShippedToday
    else
      .ok (applyShip st fid attestationUID currentTime 1,
        [Event.StreakBroken fid user.currentStreak user.lastShipTimestamp,
         Event.ShipRecorded fid attestationUID currentTime 1])

/-- `getCurrentStreak` (StreakTracker.sol lines 136–156).  Note the source
computes `daysSinceLastShip = (block.timestamp - lastShipTimestamp) / ONE_DAY`
from the elapsed seconds, not from a difference of epoch days. -/
def getCurrentStreak (st : TrackerState) (queryTime fid : Nat) : Nat :=
  let user := st.userData fid
  if user.lastShipTimestamp = 0 then 0
  else
    let daysSinceLastShip := (queryTime - user.lastShipTimestamp) / ONE_DAY
    if daysSinceLastShip > 1 then 0
    else user.currentStreak

/-- `getLastShipTimestamp` (StreakTracker.sol lines 161–165). -/
def getLastShipTimestamp (st : TrackerState) (fid : Nat) : Nat :=
  (st.userData fid).lastShipTimestamp

/-- `getTotalShips` (StreakTracker.sol lines 170–172). -/
def getTotalShips (st : TrackerState) (fid : Nat) : Nat :=
  (st.userData fid).totalShips

/-- `getShipUIDs` (StreakTracker.sol lines 177–181). -/
def getShipUIDs (st : TrackerState) (fid : Nat) : List Nat :=
  (st.userData fid).shipUIDs

/-- `hasShippedToday` on the tracker (StreakTracker.sol lines 186–192). -/
def hasShippedToday (st : TrackerState) (queryTime fid : Nat) : Bool :=
  let lastShip := (st.userData fid).lastShipTimestamp
  if lastShip = 0 then false
  else decide (_isSameDay lastShip queryTime)

/-- Return value of `getStreakData`. -/
structure StreakData where
  currentStreak : Nat
  totalShips : Nat
  lastShipTimestamp : Nat
  longestStreak : Nat
  deriving Repr, DecidableEq

/-- `getStreakData` (StreakTracker.sol lines 200–230): the snapshot query;
its `currentStreak` component is the visible (lapsing) value, the other three
components are returned as stored. -/
def getStreakData (st : TrackerState) (queryTime fid : Nat) : StreakData :=
  let user := st.userData fid
  let activeCurrent :=
    if 0 < user.lastShipTimestamp then
      if (queryTime - user.lastShipTimestamp) / ONE_DAY ≤ 1 then user.currentStreak
      else 0
    else 0
  { currentStreak := activeCurrent
    totalShips := user.totalShips
    lastShipTimestamp := user.lastShipTimestamp
    longestStreak := user.longestStreak }

/-- `setResolverAuthorization` (StreakTracker.sol lines 72–78), with the
`onlyOwner` guard made explicit. -/
def setResolverAuthorization (st : TrackerState) (sender resolver : Nat)
    (authorized : Bool) : Except TrackerError (TrackerState × List Event) :=
  if sender ≠ st.owner then .error .Unauthorized
  else
    .ok ({ st with authorizedResolvers :=
             fun x => if x = resolver then authorized else st.authorizedResolvers x },
      [Event.ResolverAuthorizationChanged resolver authorized])

/-! ## ShipResolver (the admission gate) -/

/-- `MIN_SHIP_INTERVAL = 24 hours` (ShipResolver line 430). -/
def MIN_SHIP_INTERVAL : Nat := 86400

/-- `MIN_TEXT_LENGTH` (ShipResolver line 433). -/
def MIN_TEXT_LENGTH : Nat := 30

/-- `MAX_TEXT_LENGTH` (ShipResolver line 436). -/
def MAX_TEXT_LENGTH : Nat := 240

/-- `MAX_LINKS` (ShipResolver line 439). -/
def MAX_LINKS : Nat := 10

/-- Revert errors of `ShipResolver`.  `TrackerRevert e` is the propagated
revert of the nested `streakTracker.recordShip` call (the resolver does not
catch it, so the whole attestation reverts with the tracker's error). -/
inductive ShipError where
  | MissingProjectReference
  | InvalidProjectReference
  | InvalidFID
  | EmptyShipText
  | ShipTextTooShort
  | ShipTextTooLong
  | TooManyLinks
  | AlreadyShippedToday
  | RevocationNotSupported
  | TrackerRevert (e : TrackerError)
  deriving Repr, DecidableEq

/-- An EAS attestation as seen by the resolver: the record fields consulted by
`onAttest` / `_isValidProjectAttestation`, plus the abi-decoded ship payload
(`string text, string[] links, uint256 timestamp, uint256 fid`; the decoded
`timestamp` field is unused by the resolver).  `text` is the byte sequence of
the string (`bytes(text)`); links are opaque, only their count matters. -/
structure Attestation where
  uid : Nat
  schema : Nat
  refUID : Nat
  time : Nat
  revocationTime : Nat
  text : List Nat
  links : List Nat
  fid : Nat
  deriving Repr, DecidableEq

/-- Storage of `ShipResolver`: the immutable project schema UID and the
`lastShipTimestamp` rate-limit mapping. -/
structure ResolverState where
  projectSchemaUID : Nat
  lastShipTimestamp : Nat → Nat

/-- The resolver together with the tracker it calls. -/
structure SystemState where
  resolver : ResolverState
  tracker : TrackerState

/-- `_isValidProjectAttestation` (ShipResolver lines 568–582): the referenced
attestation, looked up in the external EAS store `eas`, must exist
(`time > 0`), be unrevoked, and use the project schema. -/
def _isValidProjectAttestation (eas : Nat → Attestation) (rs : ResolverState)
    (uid : Nat) : Prop :=
  let a := eas uid
  0 < a.time ∧ a.revocationTime = 0 ∧ a.schema = rs.projectSchemaUID

instance (eas : Nat → Attestation) (rs : ResolverState) (uid : Nat) :
    Decidable (_isValidProjectAttestation eas rs uid) := by
  unfold _isValidProjectAttestation; infer_instance

/-- `onAttest` (ShipResolver lines 499–553), with the EAS store, the
resolver's own address (the `msg.sender` of the nested `recordShip` call) and
`block.timestamp` explicit.  The second component of the result is the list
of `recordShip` calls issued to the tracker (fid, attestation uid) — the
external-call trace; it is filled in even when the nested call reverts.  An
`.error` result is a revert: the pre-state persists. -/
def onAttest (eas : Nat → Attestation) (sys : SystemState) (resolverAddr : Nat)
    (a : Attestation) (now : Nat) :
    Except ShipError (SystemState × List Event) × List (Nat × Nat) :=
  if a.refUID = 0 then (.error .MissingProjectReference, [])
  else if ¬ _isValidProjectAttestation eas sys.resolver a.refUID then
    (.error .InvalidProjectReference, [])
  else if a.fid = 0 then (.error .InvalidFID, [])
  else if a.text.length = 0 then (.error .EmptyShipText, [])
  else if a.text.length < MIN_TEXT_LENGTH then (.error .ShipTextTooShort, [])
  else if a.text.length > MAX_TEXT_LENGTH then (.error .ShipTextTooLong, [])
  else if a.links.length > MAX_LINKS then (.error .TooManyLinks, [])
  else
    let lastShip := sys.resolver.lastShipTimestamp a.fid
    if 0 < lastShip ∧ now - lastShip < MIN_SHIP_INTERVAL then
      (.error .AlreadyShippedToday, [])
    else
      let rs' : ResolverState :=
        { sys.resolver with lastShipTimestamp :=
            fun x => if x = a.fid then now else sys.resolver.lastShipTimestamp x }
      match recordShip sys.tracker resolverAddr a.fid a.uid now with
      | .error e => (.error (.TrackerRevert e), [(a.fid, a.uid)])
      | .ok (ts, evs) =>
          (.ok ({ resolver := rs', tracker := ts },
            evs ++ [Event.ShipCreated a.fid a.uid a.refUID now]), [(a.fid, a.uid)])

/-- `onRevoke` (ShipResolver lines 558–563): always reverts. -/
def onRevoke (_a : Attestation) (_value : Nat) : Except ShipError Bool :=
  .error .RevocationNotSupported

/-- `hasShippedToday` on the resolver (ShipResolver lines 587–591). -/
def resolverHasShippedToday (rs : ResolverState) (queryTime fid : Nat) : Bool :=
  let lastShip := rs.lastShipTimestamp fid
  if lastShip = 0 then false
  else decide (queryTime - lastShip < MIN_SHIP_INTERVAL)

/-- `getTimeUntilNextShip` (ShipResolver lines 596–604). -/
def getTimeUntilNextShip (rs : ResolverState) (queryTime fid : Nat) : Nat :=
  let lastShip := rs.lastShipTimestamp fid
  if lastShip = 0 then 0
  else
    let timeSinceLastShip := queryTime - lastShip
    if timeSinceLastShip ≥ MIN_SHIP_INTERVAL then 0
    else MIN_SHIP_INTERVAL - timeSinceLastShip

/-! ## Operation traces over the tracker

To state the history invariants (totals, longest streak, one event per
calendar day, append-only history) we run sequences of tracker operations
and keep ghost bookkeeping: for each identity, the times of its successful
`recordShip` calls and the streak values written by them, in order. -/

/-- An externally invoked tracker operation (caller first). -/
inductive Op where
  | record (sender fid attestationUID time : Nat)
  | setAuth (sender resolver : Nat) (authorized : Bool)
  deriving Repr, DecidableEq

/-- Ghost history: per identity, the invocation times of its successful
`recordShip` calls and the `currentStreak` values those calls wrote. -/
structure Ghost where
  admitTimes : Nat → List Nat
  writtenStreaks : Nat → List Nat

/-- Empty ghost history. -/
def Ghost.init : Ghost := { admitTimes := fun _ => [], writtenStreaks := fun _ => [] }

/-- Execute one operation: a reverting call leaves the state unchanged, a
successful `recordShip` extends the ghost history of its identity. -/
def stepOp (st : TrackerState) (g : Ghost) : Op → TrackerState × Ghost
  | .record sender fid uid t =>
    match recordShip st sender fid uid t with
    | .error _ => (st, g)
    | .ok (st', _) =>
        (st',
         { admitTimes := fun x =>
             if x = fid then g.admitTimes fid ++ [t] else g.admitTimes x
           writtenStreaks := fun x =>
             if x = fid then
               g.writtenStreaks fid ++ [(st'.userData fid).currentStreak]
             else g.writtenStreaks x })
  | .setAuth sender resolver authorized =>
    match setResolverAuthorization st sender resolver authorized with
    | .error _ => (st, g)
    | .ok (st', _) => (st', g)

/-- Execute a sequence of operations from the left. -/
def runOps (st : TrackerState) (g : Ghost) : List Op → TrackerState × Ghost
  | [] => (st, g)
  | op :: ops => runOps (stepOp st g op).1 (stepOp st g op).2 ops

/-- The invocation times of the `record` operations of a trace, in order. -/
def recTimes : List Op → List Nat
  | [] => []
  | .record _ _ _ t :: ops => t :: recTimes ops
  | .setAuth _ _ _ :: ops => recTimes ops

/-- Post-state of an `Except` call result, defaulting to the pre-state on
revert (EVM rollback). -/
def okState (dflt : TrackerState) : Except TrackerError (TrackerState × List Event) →
    TrackerState
  | .ok (st, _) => st
  | .error _ => dflt

/-- Events of an `Except` call result (none on revert). -/
def okEvents : Except TrackerError (TrackerState × List Event) → List Event
  | .ok (_, evs) => evs
  | .error _ => []

/-! ## Concrete instances used by closed statements -/

/-- A tracker state in which resolver address `7` is authorized (the state
reached from `TrackerState.initial 1` by `setResolverAuthorization` from the
owner). -/
def stAuth : TrackerState :=
  { owner := 1
    userData := fun _ => UserStreakData.initial
    authorizedResolvers := fun x => decide (x = 7) }

/-- A tracker state where identity `1` has a single ship at time 1000. -/
def stOneShip : TrackerState :=
  { owner := 1
    userData := fun x =>
      if x = 1 then
        { currentStreak := 1, longestStreak := 1, totalShips := 1
          lastShipTimestamp := 1000, shipUIDs := [11] }
      else UserStreakData.initial
    authorizedResolvers := fun x => decide (x = 7) }

/-- Five consecutive-day ships for identity `1`, each late in its epoch day
(at second 86300 of days 1–5), then run from a fresh tracker. -/
def lateDayOps : List Op :=
  [Op.setAuth 1 7 true,
   Op.record 7 1 11 172700,
   Op.record 7 1 12 259100,
   Op.record 7 1 13 345500,
   Op.record 7 1 14 431900,
   Op.record 7 1 15 518300]

/-- The tracker state after `lateDayOps`. -/
def stLate : TrackerState := (runOps (TrackerState.initial 1) Ghost.init lateDayOps).1

/-- The visible-current-streak formula as the specification words it: compare
the epoch day of the query time with the epoch day of the last event
(`daysSinceLastEvent = day(queryTime) - day(lastEventTime)`). -/
def specVisibleStreak (stored lastEventTime queryTime : Nat) : Nat :=
  if lastEventTime = 0 then 0
  else if queryTime / ONE_DAY - lastEventTime / ONE_DAY > 1 then 0
  else stored

/-- The visible-current-streak formula the source actually computes: divide
the elapsed seconds by `ONE_DAY`
(`daysSinceLastEvent = (queryTime - lastEventTime) / ONE_DAY`). -/
def codeVisibleStreak (stored lastEventTime queryTime : Nat) : Nat :=
  if lastEventTime = 0 then 0
  else if (queryTime - lastEventTime) / ONE_DAY > 1 then 0
  else stored

/-- An EAS store holding a single valid project attestation under uid `5`,
with schema `3`. -/
def eas0 : Nat → Attestation := fun u =>
  if u = 5 then
    { uid := 5, schema := 3, refUID := 0, time := 10, revocationTime := 0
      text := [], links := [], fid := 0 }
  else
    { uid := 0, schema := 0, refUID := 0, time := 0, revocationTime := 0
      text := [], links := [], fid := 0 }

/-- Resolver state: project schema `3`; identity `2` last admitted at 1000. -/
def rs0 : ResolverState :=
  { projectSchemaUID := 3
    lastShipTimestamp := fun x => if x = 2 then 1000 else 0 }

/-- Combined system for the gate scenarios. -/
def sys0 : SystemState := { resolver := rs0, tracker := stAuth }

/-- A well-formed ship attestation for identity `2` referencing project `5`,
with a 30-byte text and no links. -/
def aShip : Attestation :=
  { uid := 21, schema := 9, refUID := 5, time := 50, revocationTime := 0
    text := List.replicate 30 97, links := [], fid := 2 }

/-- The same ship with 11 links (one over `MAX_LINKS`). -/
def aShipElevenLinks : Attestation :=
  { aShip with links := List.replicate 11 0 }

/-! ## Basic lemmas about `applyShip` and `recordShip` -/

theorem applyShip_userData_self (st : TrackerState) (fid uid t n : Nat) :
    (applyShip st fid uid t n).userData fid =
      { currentStreak := n
        longestStreak :=
          if n > (st.userData fid).longestStreak then n
          else (st.userData fid).longestStreak
        totalShips := (st.userData fid).totalShips + 1
        lastShipTimestamp := t
        shipUIDs := (st.userData fid).shipUIDs ++ [uid] } := by
  simp [applyShip]

theorem applyShip_userData_other (st : TrackerState) (fid uid t n x : Nat)
    (hx : x ≠ fid) : (applyShip st fid uid t n).userData x = st.userData x := by
  simp [applyShip, hx]

theorem applyShip_owner (st : TrackerState) (fid uid t n : Nat) :
    (applyShip st fid uid t n).owner = st.owner := rfl

theorem applyShip_auth (st : TrackerState) (fid uid t n : Nat) :
    (applyShip st fid uid t n).authorizedResolvers = st.authorizedResolvers := rfl

/-- Case analysis of a successful `recordShip`: the guards that admitted it
and the exact post-state and events of each of the three streak branches. -/
theorem recordShip_ok_cases {st : TrackerState} {sender fid uid t : Nat}
    {st' : TrackerState} {evs : List Event}
    (h : recordShip st sender fid uid t = .ok (st', evs)) :
    st.authorizedResolvers sender = true ∧ fid ≠ 0 ∧ uid ≠ 0 ∧
    ¬(0 < (st.userData fid).lastShipTimestamp ∧
        _isSameDay (st.userData fid).lastShipTimestamp t) ∧
    (((st.userData fid).lastShipTimestamp = 0 ∧
        st' = applyShip st fid uid t 1 ∧
        evs = [Event.ShipRecorded fid uid t 1]) ∨
     ((st.userData fid).lastShipTimestamp ≠ 0 ∧
        _isConsecutiveDay (st.userData fid).lastShipTimestamp t ∧
        st' = applyShip st fid uid t ((st.userData fid).currentStreak + 1) ∧
        evs = [Event.ShipRecorded fid uid t ((st.userData fid).currentStreak + 1)]) ∨
     ((st.userData fid).lastShipTimestamp ≠ 0 ∧
        ¬ _isConsecutiveDay (st.userData fid).lastShipTimestamp t ∧
        ¬ _isSameDay (st.userData fid).lastShipTimestamp t ∧
        st' = applyShip st fid uid t 1 ∧
        evs = [Event.StreakBroken fid (st.userData fid).currentStreak
                 (st.userData fid).lastShipTimestamp,
               Event.ShipRecorded fid uid t 1])) := by
  simp only [recordShip] at h
  split_ifs at h with h1 h2 h3 h4 h5 h6 h7 <;>
    simp only [Except.ok.injEq, Prod.mk.injEq] at h
  · obtain ⟨rfl, rfl⟩ := h
    refine ⟨by simpa using h1, h2, h3, h4, Or.inl ⟨h5, rfl, rfl⟩⟩
  · obtain ⟨rfl, rfl⟩ := h
    refine ⟨by simpa using h1, h2, h3, h4, Or.inr (Or.inl ⟨h5, h6, rfl, rfl⟩)⟩
  · obtain ⟨rfl, rfl⟩ := h
    refine ⟨by simpa using h1, h2, h3, h4, Or.inr (Or.inr ⟨h5, h6, h7, rfl, rfl⟩)⟩

/-- A `recordShip` invocation that happens on the same epoch day as a
previous ship (for a well-formed, authorized call) reverts with
`AlreadyShippedToday`. -/
theorem recordShip_same_day_error {st : TrackerState} (sender fid uid t : Nat)
    (hauth : st.authorizedResolvers sender = true) (hfid : fid ≠ 0)
    (huid : uid ≠ 0) (hlast : 0 < (st.userData fid).lastShipTimestamp)
    (hsame : _isSameDay (st.userData fid).lastShipTimestamp t) :
    recordShip st sender fid uid t = .error .AlreadyShippedToday := by
  unfold recordShip
  simp [hauth, hfid, huid, hlast, hsame]

/-- A reverting `record` step leaves both the tracker state and the ghost
history unchanged. -/
theorem stepOp_record_error {st : TrackerState} {g : Ghost}
    {sender fid uid t : Nat} {e : TrackerError}
    (h : recordShip st sender fid uid t = .error e) :
    stepOp st g (.record sender fid uid t) = (st, g) := by
  simp [stepOp, h]

/-- A successful `record` step: the new tracker state and the ghost history
extension. -/
theorem stepOp_record_ok {st : TrackerState} {g : Ghost}
    {sender fid uid t : Nat} {st' : TrackerState} {evs : List Event}
    (h : recordShip st sender fid uid t = .ok (st', evs)) :
    stepOp st g (.record sender fid uid t) =
      (st',
       { admitTimes := fun x =>
           if x = fid then g.admitTimes fid ++ [t] else g.admitTimes x
         writtenStreaks := fun x =>
           if x = fid then
             g.writtenStreaks fid ++ [(st'.userData fid).currentStreak]
           else g.writtenStreaks x }) := by
  simp [stepOp, h]

/-- A `setAuth` step never changes the `userData` mapping nor the ghost
history. -/
theorem stepOp_setAuth_userData (st : TrackerState) (g : Ghost)
    (sender resolver : Nat) (authorized : Bool) :
    ((stepOp st g (.setAuth sender resolver authorized)).1.userData =
        st.userData) ∧
    (stepOp st g (.setAuth sender resolver authorized)).2 = g := by
  by_cases hs : sender ≠ st.owner <;>
    simp [stepOp, setResolverAuthorization, hs]

/-- A successful `recordShip` always produces an `applyShip` post-state whose
written streak is `1` or the previous streak plus one. -/
theorem recordShip_ok_applyShip {st : TrackerState} {sender fid uid t : Nat}
    {st' : TrackerState} {evs : List Event}
    (h : recordShip st sender fid uid t = .ok (st', evs)) :
    ∃ n, (n = 1 ∨ n = (st.userData fid).currentStreak + 1) ∧
      st' = applyShip st fid uid t n := by
  rcases recordShip_ok_cases h with ⟨-, -, -, -, hc⟩
  rcases hc with ⟨-, rfl, -⟩ | ⟨-, -, rfl, -⟩ | ⟨-, -, -, rfl, -⟩
  exacts [⟨1, Or.inl rfl, rfl⟩, ⟨_, Or.inr rfl, rfl⟩, ⟨1, Or.inl rfl, rfl⟩]

/-- Helper: the last element of a list, when it exists, is a member. -/
theorem mem_of_getLast_eq {α : Type} {l : List α} {a : α}
    (h : l.getLast? = some a) : a ∈ l := by
  cases l with
  | nil => simp at h
  | cons x xs =>
    rw [List.getLast?_eq_getLast_of_ne_nil (List.cons_ne_nil x xs)] at h
    injection h with h
    exact h ▸ List.getLast_mem _

/-! ## History invariants -/

/-- Counting invariants tied to the ghost history: `totalShips` counts both
the stored UIDs and the successful calls, `longestStreak` is the maximum
streak value ever written, and it bounds the current streak. -/
structure InvBasic (st : TrackerState) (g : Ghost) : Prop where
  total_len : ∀ fid, (st.userData fid).totalShips = (st.userData fid).shipUIDs.length
  total_admits : ∀ fid, (st.userData fid).totalShips = (g.admitTimes fid).length
  longest_max : ∀ fid,
    (st.userData fid).longestStreak = (g.writtenStreaks fid).foldl max 0
  cur_le_longest : ∀ fid,
    (st.userData fid).currentStreak ≤ (st.userData fid).longestStreak

/-- Calendar-day invariants tied to the ghost history: `lastShipTimestamp`
is the last admitted time, admitted times are positive, and the epoch days of
the admitted times of each identity are strictly increasing. -/
structure InvDays (st : TrackerState) (g : Ghost) : Prop where
  last_eq : ∀ fid,
    (st.userData fid).lastShipTimestamp = ((g.admitTimes fid).getLast?).getD 0
  pos : ∀ fid, ∀ s ∈ g.admitTimes fid, 1 ≤ s
  chain : ∀ fid,
    List.Chain' (fun a b : Nat => a < b) ((g.admitTimes fid).map dayOf)

theorem initial_invBasic (owner : Nat) :
    InvBasic (TrackerState.initial owner) Ghost.init := by
  constructor <;> intro fid <;>
    simp [TrackerState.initial, Ghost.init, UserStreakData.initial]

theorem initial_invDays (owner : Nat) :
    InvDays (TrackerState.initial owner) Ghost.init := by
  constructor <;> intro fid <;>
    simp [TrackerState.initial, Ghost.init, UserStreakData.initial]

/-- Folding `max` over a list extended by one element. -/
theorem foldl_max_concat (w : List Nat) (m : Nat) :
    List.foldl max 0 (w ++ [m]) = max (List.foldl max 0 w) m := by
  simp [List.foldl_append]

/-- An `if` whose condition compares a value with itself takes the then
branch. -/
theorem ite_self_left {α : Type} (x : Nat) (a b : α) :
    (if x = x then a else b) = a := if_pos rfl

theorem stepOp_invBasic (st : TrackerState) (g : Ghost) (op : Op)
    (h : InvBasic st g) : InvBasic (stepOp st g op).1 (stepOp st g op).2 := by
  cases op with
  | record sender fid uid t =>
    cases hrec : recordShip st sender fid uid t with
    | error e => rw [stepOp_record_error hrec]; exact h
    | ok p =>
      obtain ⟨st', evs⟩ := p
      obtain ⟨n, -, rfl⟩ := recordShip_ok_applyShip hrec
      rw [stepOp_record_ok hrec]
      constructor <;> intro x <;> by_cases hx : x = fid
      · subst hx; simp [applyShip_userData_self, h.total_len x]
      · simp [applyShip_userData_other _ _ _ _ _ _ hx, h.total_len x]
      · subst hx; simp [applyShip_userData_self, h.total_admits x]
      · simp [hx, applyShip_userData_other _ _ _ _ _ _ hx, h.total_admits x]
      · subst hx
        have hL := h.longest_max x
        simp [applyShip_userData_self, foldl_max_concat, ← hL]
        split_ifs <;> omega
      · simp [hx, applyShip_userData_other _ _ _ _ _ _ hx, h.longest_max x]
      · subst hx; simp only [applyShip_userData_self]; split_ifs <;> omega
      · simp [applyShip_userData_other _ _ _ _ _ _ hx, h.cur_le_longest x]
  | setAuth sender resolver authorized =>
    obtain ⟨hud, hg⟩ := stepOp_setAuth_userData st g sender resolver authorized
    constructor <;> intro x <;> simp only [hud, hg]
    exacts [h.total_len x, h.total_admits x, h.longest_max x, h.cur_le_longest x]

theorem runOps_invBasic (ops : List Op) : ∀ st g, InvBasic st g →
    InvBasic (runOps st g ops).1 (runOps st g ops).2 := by
  induction ops with
  | nil => intro st g h; exact h
  | cons op ops ih =>
    intro st g h
    exact ih _ _ (stepOp_invBasic st g op h)

/-- Membership in the ghost admit list after a `record` step comes from the
old list or is the new invocation time. -/
theorem stepOp_record_admit_mem {st : TrackerState} {g : Ghost}
    {sender fid uid t x u : Nat}
    (hu : u ∈ (stepOp st g (.record sender fid uid t)).2.admitTimes x) :
    u ∈ g.admitTimes x ∨ u = t := by
  cases hrec : recordShip st sender fid uid t with
  | error e => rw [stepOp_record_error hrec] at hu; exact Or.inl hu
  | ok p =>
    obtain ⟨st', evs⟩ := p
    rw [stepOp_record_ok hrec] at hu
    by_cases hx : x = fid
    · subst hx; simp at hu; exact hu
    · simp only [if_neg hx] at hu; exact Or.inl hu

theorem stepOp_record_invDays {st : TrackerState} {g : Ghost}
    (sender fid uid t : Nat) (h : InvDays st g) (ht : 1 ≤ t)
    (hdom : ∀ x u, u ∈ g.admitTimes x → u ≤ t) :
    InvDays (stepOp st g (.record sender fid uid t)).1
      (stepOp st g (.record sender fid uid t)).2 := by
  cases hrec : recordShip st sender fid uid t with
  | error e => rw [stepOp_record_error hrec]; exact h
  | ok p =>
    obtain ⟨st', evs⟩ := p
    have hguard := (recordShip_ok_cases hrec).2.2.2.1
    obtain ⟨n, -, rfl⟩ := recordShip_ok_applyShip hrec
    rw [stepOp_record_ok hrec]
    constructor
    · intro x; by_cases hx : x = fid
      · subst hx; simp [applyShip_userData_self]
      · simp [hx, applyShip_userData_other _ _ _ _ _ _ hx, h.last_eq x]
    · intro x s hs; by_cases hx : x = fid
      · subst hx
        simp at hs
        rcases hs with hs | rfl
        · exact h.pos _ s hs
        · exact ht
      · simp only [if_neg hx] at hs; exact h.pos x s hs
    · intro x; by_cases hx : x = fid
      · subst hx
        dsimp only
        rw [if_pos rfl, List.map_append, List.chain'_append]
        refine ⟨h.chain x, by simp, ?_⟩
        intro a ha b hb
        simp only [List.map_cons, List.map_nil, List.head?_cons, Option.mem_def,
          Option.some.injEq] at hb
        subst hb
        have ha' : (List.map dayOf (g.admitTimes x)).getLast? = some a := ha
        rw [List.getLast?_map dayOf (g.admitTimes x)] at ha'
        cases hlq : (g.admitTimes x).getLast? with
        | none => rw [hlq] at ha'; simp at ha'
        | some s =>
          rw [hlq] at ha'
          simp only [Option.map_some', Option.some.injEq] at ha'
          obtain rfl := ha'.symm
          have hmem : s ∈ g.admitTimes x := mem_of_getLast_eq hlq
          have hlast : (st.userData x).lastShipTimestamp = s := by
            rw [h.last_eq x, hlq]; rfl
          have hspos : 0 < s := h.pos x s hmem
          have hne : ¬ _isSameDay s t := by
            intro hsame
            exact hguard ⟨by rw [hlast]; exact hspos, by rw [hlast]; exact hsame⟩
          have hle : dayOf s ≤ dayOf t :=
            Nat.div_le_div_right (hdom x s hmem)
          exact lt_of_le_of_ne hle (fun hEq => hne hEq)
      · simp only [if_neg hx]; exact h.chain x

theorem stepOp_setAuth_invDays (st : TrackerState) (g : Ghost)
    (sender resolver : Nat) (authorized : Bool) (h : InvDays st g) :
    InvDays (stepOp st g (.setAuth sender resolver authorized)).1
      (stepOp st g (.setAuth sender resolver authorized)).2 := by
  obtain ⟨hud, hg⟩ := stepOp_setAuth_userData st g sender resolver authorized
  constructor
  · intro x; rw [hud, hg]; exact h.last_eq x
  · intro x; rw [hg]; exact h.pos x
  · intro x; rw [hg]; exact h.chain x

theorem runOps_invDays (ops : List Op) : ∀ st g, InvDays st g →
    List.Pairwise (· ≤ ·) (recTimes ops) →
    (∀ t ∈ recTimes ops, 1 ≤ t) →
    (∀ x u, u ∈ g.admitTimes x → ∀ t ∈ recTimes ops, u ≤ t) →
    InvDays (runOps st g ops).1 (runOps st g ops).2 := by
  induction ops with
  | nil => intro st g h _ _ _; exact h
  | cons op ops ih =>
    intro st g h hsorted hpos hdom
    cases op with
    | record sender fid uid t =>
      simp only [recTimes] at hsorted hpos hdom
      rw [List.pairwise_cons] at hsorted
      refine ih _ _
        (stepOp_record_invDays sender fid uid t h (hpos t (List.mem_cons_self t _))
          (fun x u hu => hdom x u hu t (List.mem_cons_self t _)))
        hsorted.2 (fun t' ht' => hpos t' (List.mem_cons_of_mem _ ht')) ?_
      intro x u hu t' ht'
      rcases stepOp_record_admit_mem hu with hu' | rfl
      · exact hdom x u hu' t' (List.mem_cons_of_mem _ ht')
      · exact hsorted.1 t' ht'
    | setAuth sender resolver authorized =>
      simp only [recTimes] at hsorted hpos hdom
      obtain ⟨-, hg⟩ := stepOp_setAuth_userData st g sender resolver authorized
      refine ih _ _ (stepOp_setAuth_invDays st g sender resolver authorized h)
        hsorted hpos ?_
      rw [hg]
      exact hdom

/-- `longestStreak` never decreases across a single operation. -/
theorem stepOp_longest_mono (st : TrackerState) (g : Ghost) (op : Op)
    (fid : Nat) :
    (st.userData fid).longestStreak ≤
      ((stepOp st g op).1.userData fid).longestStreak := by
  cases op with
  | record sender fid' uid t =>
    cases hrec : recordShip st sender fid' uid t with
    | error e => rw [stepOp_record_error hrec]
    | ok p =>
      obtain ⟨st', evs⟩ := p
      obtain ⟨n, -, rfl⟩ := recordShip_ok_applyShip hrec
      rw [stepOp_record_ok hrec]
      by_cases hx : fid = fid'
      · subst hx; rw [applyShip_userData_self]; dsimp only; split_ifs <;> omega
      · rw [applyShip_userData_other _ _ _ _ _ _ hx]
  | setAuth sender resolver authorized =>
    rw [(stepOp_setAuth_userData st g sender resolver authorized).1]

theorem runOps_longest_mono (ops : List Op) : ∀ (st : TrackerState) (g : Ghost)
    (fid : Nat), (st.userData fid).longestStreak ≤
      ((runOps st g ops).1.userData fid).longestStreak := by
  induction ops with
  | nil => intro st g fid; exact le_rfl
  | cons op ops ih =>
    intro st g fid
    exact le_trans (stepOp_longest_mono st g op fid) (ih _ _ fid)

theorem runOps_append (l1 l2 : List Op) : ∀ st g,
    runOps st g (l1 ++ l2) = runOps (runOps st g l1).1 (runOps st g l1).2 l2 := by
  induction l1 with
  | nil => intro st g; rfl
  | cons op l1 ih =>
    intro st g
    simp only [List.cons_append, runOps]
    exact ih _ _

/-! ## Claim theorems -/

/-- C1, counterexample: the claim computes `daysSinceLastEvent` as
`day(queryTime) - day(lastEventTime)`; the source computes
`(queryTime - lastEventTime) / ONE_DAY`.  After five consecutive-day ships
ending late on epoch day 5 (time 518300), a query at the start of epoch day 7
(time 604800) is two calendar days later, so the claim's formula yields 0,
yet `getCurrentStreak` (and `getStreakData`) return the stored streak 5
because only 86500 seconds have elapsed. -/
theorem C1_counterexample :
    (stLate.userData 1).lastShipTimestamp = 518300 ∧
    (stLate.userData 1).currentStreak = 5 ∧
    dayOf 604800 - dayOf (stLate.userData 1).lastShipTimestamp = 2 ∧
    specVisibleStreak (stLate.userData 1).currentStreak
      (stLate.userData 1).lastShipTimestamp 604800 = 0 ∧
    getCurrentStreak stLate 604800 1 = 5 ∧
    (getStreakData stLate 604800 1).currentStreak = 5 := by
  decide

/-- C1, amended: for every identity and query time not earlier than the last
event, the visible current streak returned by `getCurrentStreak` (and the
`currentStreak` field of `getStreakData`) is: 0 if `lastEventTime = 0`;
otherwise, letting `daysSinceLastEvent = (queryTime - lastEventTime) / 86400`
(elapsed seconds divided by the day length), it is 0 when
`daysSinceLastEvent > 1` and equals the stored `currentStreak` field when
`daysSinceLastEvent ≤ 1`. -/
theorem C1_visible_streak (st : TrackerState) (queryTime fid : Nat)
    (_hq : (st.userData fid).lastShipTimestamp ≤ queryTime) :
    getCurrentStreak st queryTime fid =
      codeVisibleStreak (st.userData fid).currentStreak
        (st.userData fid).lastShipTimestamp queryTime ∧
    (getStreakData st queryTime fid).currentStreak =
      getCurrentStreak st queryTime fid := by
  unfold getCurrentStreak getStreakData codeVisibleStreak
  dsimp only
  constructor
  · split_ifs <;> rfl
  · split_ifs <;> first | rfl | omega

/-- Witness for `C1_visible_streak` at a state with one ship at time 1000
and query time 87000. -/
theorem C1_visible_streak_witness :
    (stOneShip.userData 1).lastShipTimestamp ≤ 87000 ∧
    getCurrentStreak stOneShip 87000 1 =
      codeVisibleStreak (stOneShip.userData 1).currentStreak
        (stOneShip.userData 1).lastShipTimestamp 87000 ∧
    (getStreakData stOneShip 87000 1).currentStreak =
      getCurrentStreak stOneShip 87000 1 :=
  ⟨by decide, (C1_visible_streak stOneShip 87000 1 (by decide)).1,
   (C1_visible_streak stOneShip 87000 1 (by decide)).2⟩

/-- C2: for every successful `recordShip` at time `now`: if
`lastEventTime = 0` the new stored streak is 1; if
`day(now) = day(lastEventTime) + 1` it is the previous stored streak plus 1;
otherwise a `StreakBroken` event carrying the previous streak and last event
time is emitted and the new stored streak is 1.  The new streak is always 1
or the previous streak plus one — no other value is ever assigned. -/
theorem C2_streak_update (st : TrackerState) (sender fid uid now : Nat)
    (st' : TrackerState) (evs : List Event)
    (h : recordShip st sender fid uid now = .ok (st', evs)) :
    ((st.userData fid).lastShipTimestamp = 0 →
      (st'.userData fid).currentStreak = 1) ∧
    ((st.userData fid).lastShipTimestamp ≠ 0 →
      dayOf now = dayOf (st.userData fid).lastShipTimestamp + 1 →
      (st'.userData fid).currentStreak = (st.userData fid).currentStreak + 1) ∧
    ((st.userData fid).lastShipTimestamp ≠ 0 →
      dayOf now ≠ dayOf (st.userData fid).lastShipTimestamp + 1 →
      (st'.userData fid).currentStreak = 1 ∧
      Event.StreakBroken fid (st.userData fid).currentStreak
        (st.userData fid).lastShipTimestamp ∈ evs) ∧
    ((st'.userData fid).currentStreak = 1 ∨
      (st'.userData fid).currentStreak = (st.userData fid).currentStreak + 1) := by
  obtain ⟨-, -, -, -, hc⟩ := recordShip_ok_cases h
  rcases hc with ⟨h0, rfl, rfl⟩ | ⟨h0, hcons, rfl, rfl⟩ | ⟨h0, hcons, hsame, rfl, rfl⟩
  · exact ⟨fun _ => by simp [applyShip_userData_self],
      fun hne _ => absurd h0 hne, fun hne _ => absurd h0 hne,
      Or.inl (by simp [applyShip_userData_self])⟩
  · have hcons' : dayOf now = dayOf (st.userData fid).lastShipTimestamp + 1 := hcons
    exact ⟨fun h0' => absurd h0' h0,
      fun _ _ => by simp [applyShip_userData_self],
      fun _ hne => absurd hcons' hne,
      Or.inr (by simp [applyShip_userData_self])⟩
  · have hcons' : dayOf now ≠ dayOf (st.userData fid).lastShipTimestamp + 1 :=
      fun hEq => hcons hEq
    exact ⟨fun h0' => absurd h0' h0,
      fun _ hEq => absurd hEq hcons',
      fun _ _ => ⟨by simp [applyShip_userData_self], by simp⟩,
      Or.inl (by simp [applyShip_userData_self])⟩

/-- Witness for `C2_streak_update`: a first-ever ship writes streak 1. -/
theorem C2_streak_update_witness :
    recordShip stAuth 7 1 11 100 =
      .ok (okState stAuth (recordShip stAuth 7 1 11 100),
           okEvents (recordShip stAuth 7 1 11 100)) ∧
    (stAuth.userData 1).lastShipTimestamp = 0 ∧
    ((okState stAuth (recordShip stAuth 7 1 11 100)).userData 1).currentStreak = 1 :=
  ⟨rfl, by decide,
   (C2_streak_update stAuth 7 1 11 100
     (okState stAuth (recordShip stAuth 7 1 11 100))
     (okEvents (recordShip stAuth 7 1 11 100)) rfl).1 (by decide)⟩

/-- Operations exhibiting the failure of C3 as stated: invocation times 0 and
50000 are non-decreasing, yet both land on epoch day 0 and both are
admitted, because a `lastShipTimestamp` of 0 is indistinguishable from the
"never shipped" sentinel. -/
def c3Ops : List Op :=
  [Op.setAuth 1 7 true, Op.record 7 1 11 0, Op.record 7 1 12 50000]

/-- C3, counterexample: under non-decreasing invocation times (0 then
50000), identity 1 receives two `eventRefs` entries within the same epoch
day 0, so "at most one entry per calendar day" fails as stated (it needs
positive timestamps). -/
theorem C3_counterexample :
    List.Pairwise (· ≤ ·) (recTimes c3Ops) ∧
    ((runOps (TrackerState.initial 1) Ghost.init c3Ops).1.userData 1).shipUIDs
      = [11, 12] ∧
    ((runOps (TrackerState.initial 1) Ghost.init c3Ops).2.admitTimes 1).map dayOf
      = [0, 0] := by
  refine ⟨?_, by decide, by decide⟩
  decide

/-- C3, amended: a `recordShip` invoked (well-formed and authorized) on the
same epoch day as the identity's last event reverts with
`AlreadyShippedToday` and mutates nothing; and for every operation sequence
with non-decreasing **positive** invocation times, each identity has at most
one `eventRefs` entry per epoch day (the admitted days are pairwise
distinct, and entries are in bijection with admitted days). -/
theorem C3_per_day_unique :
    (∀ (st : TrackerState) (sender fid uid now : Nat) (g : Ghost),
      st.authorizedResolvers sender = true → fid ≠ 0 → uid ≠ 0 →
      0 < (st.userData fid).lastShipTimestamp →
      _isSameDay (st.userData fid).lastShipTimestamp now →
      recordShip st sender fid uid now = .error .AlreadyShippedToday ∧
      stepOp st g (.record sender fid uid now) = (st, g)) ∧
    (∀ (owner : Nat) (ops : List Op),
      List.Pairwise (· ≤ ·) (recTimes ops) →
      (∀ t ∈ recTimes ops, 1 ≤ t) →
      ∀ fid,
        (((runOps (TrackerState.initial owner) Ghost.init ops).2.admitTimes fid).map
          dayOf).Nodup ∧
        ((runOps (TrackerState.initial owner) Ghost.init ops).1.userData
            fid).shipUIDs.length =
          ((runOps (TrackerState.initial owner) Ghost.init ops).2.admitTimes
            fid).length) := by
  constructor
  · intro st sender fid uid now g hauth hfid huid hlast hsame
    have herr := recordShip_same_day_error sender fid uid now hauth hfid huid hlast hsame
    exact ⟨herr, stepOp_record_error herr⟩
  · intro owner ops hsorted hpos fid
    have hd := (runOps_invDays ops _ _ (initial_invDays owner) hsorted hpos
      (by intro x u hu; simp [Ghost.init] at hu)).chain fid
    rw [List.chain'_iff_pairwise] at hd
    have hb := runOps_invBasic ops _ _ (initial_invBasic owner)
    refine ⟨hd.imp (fun hab => Nat.ne_of_lt hab), ?_⟩
    rw [← hb.total_len fid, hb.total_admits fid]

/-- Witness for `C3_per_day_unique`: a same-day second ship reverts at a
concrete state; and a two-day trace with positive times has distinct
admitted days. -/
theorem C3_per_day_unique_witness :
    (stOneShip.authorizedResolvers 7 = true ∧
      0 < (stOneShip.userData 1).lastShipTimestamp ∧
      _isSameDay (stOneShip.userData 1).lastShipTimestamp 1500 ∧
      recordShip stOneShip 7 1 12 1500 = .error .AlreadyShippedToday) ∧
    (((runOps (TrackerState.initial 1) Ghost.init
        [Op.setAuth 1 7 true, Op.record 7 1 11 100, Op.record 7 1 12 90000]).2.admitTimes
        1).map dayOf).Nodup :=
  ⟨⟨by decide, by decide, by decide,
    (C3_per_day_unique.1 stOneShip 7 1 12 1500 Ghost.init (by decide) (by decide)
      (by decide) (by decide) (by decide)).1⟩,
   (C3_per_day_unique.2 1 [Op.setAuth 1 7 true, Op.record 7 1 11 100,
      Op.record 7 1 12 90000] (by decide) (by decide) 1).1⟩

/-- C4: every successful `recordShip` appends exactly one entry to
`shipUIDs` and increases `totalShips` by exactly 1; along every operation
sequence from a fresh tracker, `totalShips` equals the number of successful
`recordShip` calls for the identity (the ghost admit count) and equals the
length of `shipUIDs`. -/
theorem C4_total_count :
    (∀ (st : TrackerState) (sender fid uid now : Nat) (st' : TrackerState)
        (evs : List Event),
      recordShip st sender fid uid now = .ok (st', evs) →
      (st'.userData fid).totalShips = (st.userData fid).totalShips + 1 ∧
      (st'.userData fid).shipUIDs = (st.userData fid).shipUIDs ++ [uid]) ∧
    (∀ (owner : Nat) (ops : List Op) (fid : Nat),
      ((runOps (TrackerState.initial owner) Ghost.init ops).1.userData
          fid).totalShips =
        ((runOps (TrackerState.initial owner) Ghost.init ops).2.admitTimes
          fid).length ∧
      ((runOps (TrackerState.initial owner) Ghost.init ops).1.userData
          fid).totalShips =
        ((runOps (TrackerState.initial owner) Ghost.init ops).1.userData
          fid).shipUIDs.length) := by
  constructor
  · intro st sender fid uid now st' evs h
    obtain ⟨n, -, rfl⟩ := recordShip_ok_applyShip h
    constructor <;> simp [applyShip_userData_self]
  · intro owner ops fid
    have hb := runOps_invBasic ops _ _ (initial_invBasic owner)
    exact ⟨hb.total_admits fid, hb.total_len fid⟩

/-- Witness for `C4_total_count`: the first ship of identity 1 raises its
total from 0 to 1 and stores the single ship UID. -/
theorem C4_total_count_witness :
    recordShip stAuth 7 1 11 100 =
      .ok (okState stAuth (recordShip stAuth 7 1 11 100),
           okEvents (recordShip stAuth 7 1 11 100)) ∧
    ((okState stAuth (recordShip stAuth 7 1 11 100)).userData 1).totalShips =
      (stAuth.userData 1).totalShips + 1 ∧
    ((okState stAuth (recordShip stAuth 7 1 11 100)).userData 1).shipUIDs =
      (stAuth.userData 1).shipUIDs ++ [11] :=
  ⟨rfl, C4_total_count.1 stAuth 7 1 11 100
    (okState stAuth (recordShip stAuth 7 1 11 100))
    (okEvents (recordShip stAuth 7 1 11 100)) rfl⟩

/-- C5: `longestStreak` never decreases across any sequence of operations,
always bounds the stored `currentStreak`, and always equals the maximum
over all streak values ever written for the identity (the fold of `max`
over the ghost list of written streaks). -/
theorem C5_longest_streak :
    (∀ (owner : Nat) (ops more : List Op) (fid : Nat),
      ((runOps (TrackerState.initial owner) Ghost.init ops).1.userData
          fid).longestStreak ≤
        ((runOps (TrackerState.initial owner) Ghost.init (ops ++ more)).1.userData
          fid).longestStreak) ∧
    (∀ (owner : Nat) (ops : List Op) (fid : Nat),
      ((runOps (TrackerState.initial owner) Ghost.init ops).1.userData
          fid).longestStreak =
        ((runOps (TrackerState.initial owner) Ghost.init ops).2.writtenStreaks
          fid).foldl max 0 ∧
      ((runOps (TrackerState.initial owner) Ghost.init ops).1.userData
          fid).currentStreak ≤
        ((runOps (TrackerState.initial owner) Ghost.init ops).1.userData
          fid).longestStreak) := by
  constructor
  · intro owner ops more fid
    rw [runOps_append]
    exact runOps_longest_mono more _ _ fid
  · intro owner ops fid
    have hb := runOps_invBasic ops _ _ (initial_invBasic owner)
    exact ⟨hb.longest_max fid, hb.cur_le_longest fid⟩

/-- C6: for a ship candidate that passes all content checks (valid project
reference, non-zero identity, text length within bounds, link count within
bounds), `onAttest` reverts with the gate-level `AlreadyShippedToday` exactly
when the gate's `lastShipTimestamp` for the identity is positive and less
than `MIN_SHIP_INTERVAL` (24 hours) before `now` — independently of the
tracker's calendar-day rule (the tracker state is arbitrary, and a tracker
revert surfaces as `TrackerRevert`, a different error). -/
theorem C6_throttle (eas : Nat → Attestation) (sys : SystemState)
    (resolverAddr : Nat) (a : Attestation) (now : Nat)
    (href : a.refUID ≠ 0)
    (hvalid : _isValidProjectAttestation eas sys.resolver a.refUID)
    (hfid : a.fid ≠ 0)
    (hmin : MIN_TEXT_LENGTH ≤ a.text.length)
    (hmax : a.text.length ≤ MAX_TEXT_LENGTH)
    (hlinks : a.links.length ≤ MAX_LINKS) :
    (onAttest eas sys resolverAddr a now).1 = .error .AlreadyShippedToday ↔
      0 < sys.resolver.lastShipTimestamp a.fid ∧
        now - sys.resolver.lastShipTimestamp a.fid < MIN_SHIP_INTERVAL := by
  have hmin' : 30 ≤ a.text.length := hmin
  have hmax' : a.text.length ≤ 240 := hmax
  have hlinks' : a.links.length ≤ 10 := hlinks
  simp only [onAttest]
  rw [if_neg href, if_neg (not_not_intro hvalid), if_neg hfid,
    if_neg (by omega : ¬ a.text.length = 0),
    if_neg (by unfold MIN_TEXT_LENGTH; omega),
    if_neg (by unfold MAX_TEXT_LENGTH; omega),
    if_neg (by unfold MAX_LINKS; omega)]
  by_cases hthr : 0 < sys.resolver.lastShipTimestamp a.fid ∧
      now - sys.resolver.lastShipTimestamp a.fid < MIN_SHIP_INTERVAL
  · rw [if_pos hthr]
    simpa using hthr
  · rw [if_neg hthr]
    cases hr : recordShip sys.tracker resolverAddr a.fid a.uid now with
    | error e => simpa using hthr
    | ok p => simpa using hthr

/-- Witness for `C6_throttle`: Scenario D — identity 2 shipped at time 1000
and attempts again 12 hours later (now = 44200); the gate rejects with
`AlreadyShippedToday`. -/
theorem C6_throttle_witness :
    0 < rs0.lastShipTimestamp 2 ∧
    44200 - rs0.lastShipTimestamp 2 < MIN_SHIP_INTERVAL ∧
    (onAttest eas0 sys0 9 aShip 44200).1 = .error .AlreadyShippedToday :=
  ⟨by decide, by decide,
   (C6_throttle eas0 sys0 9 aShip 44200 (by decide) (by decide) (by decide)
     (by decide) (by decide) (by decide)).mpr ⟨by decide, by decide⟩⟩

/-- Every `onAttest` run has one of three shapes: a gate-level validation
revert with no tracker call, a propagated tracker revert after exactly one
tracker call, or success after exactly one tracker call. -/
theorem onAttest_shape (eas : Nat → Attestation) (sys : SystemState)
    (resolverAddr : Nat) (a : Attestation) (now : Nat) :
    (∃ e, onAttest eas sys resolverAddr a now = (.error e, []) ∧
      ∀ te, e ≠ ShipError.TrackerRevert te) ∨
    (∃ te, onAttest eas sys resolverAddr a now =
      (.error (ShipError.TrackerRevert te), [(a.fid, a.uid)])) ∨
    (∃ res, onAttest eas sys resolverAddr a now = (.ok res, [(a.fid, a.uid)])) := by
  by_cases h1 : a.refUID = 0
  · exact Or.inl ⟨_, (by unfold onAttest; rw [if_pos h1]), (by simp)⟩
  by_cases h2 : ¬ _isValidProjectAttestation eas sys.resolver a.refUID
  · exact Or.inl ⟨_, (by unfold onAttest; rw [if_neg h1, if_pos h2]), (by simp)⟩
  by_cases h3 : a.fid = 0
  · exact Or.inl ⟨_,
      (by unfold onAttest; rw [if_neg h1, if_neg h2, if_pos h3]), (by simp)⟩
  by_cases h4 : a.text.length = 0
  · exact Or.inl ⟨_,
      (by unfold onAttest; rw [if_neg h1, if_neg h2, if_neg h3, if_pos h4]),
      (by simp)⟩
  by_cases h5 : a.text.length < MIN_TEXT_LENGTH
  · exact Or.inl ⟨_,
      (by unfold onAttest
          rw [if_neg h1, if_neg h2, if_neg h3, if_neg h4, if_pos h5]),
      (by simp)⟩
  by_cases h6 : a.text.length > MAX_TEXT_LENGTH
  · exact Or.inl ⟨_,
      (by unfold onAttest
          rw [if_neg h1, if_neg h2, if_neg h3, if_neg h4, if_neg h5, if_pos h6]),
      (by simp)⟩
  by_cases h7 : a.links.length > MAX_LINKS
  · exact Or.inl ⟨_,
      (by unfold onAttest
          rw [if_neg h1, if_neg h2, if_neg h3, if_neg h4, if_neg h5, if_neg h6,
            if_pos h7]),
      (by simp)⟩
  by_cases h8 : 0 < sys.resolver.lastShipTimestamp a.fid ∧
      now - sys.resolver.lastShipTimestamp a.fid < MIN_SHIP_INTERVAL
  · exact Or.inl ⟨_,
      (by unfold onAttest
          rw [if_neg h1, if_neg h2, if_neg h3, if_neg h4, if_neg h5, if_neg h6,
            if_neg h7]
          dsimp only
          rw [if_pos h8]),
      (by simp)⟩
  cases hr : recordShip sys.tracker resolverAddr a.fid a.uid now with
  | error e =>
    refine Or.inr (Or.inl ⟨e, ?_⟩)
    unfold onAttest
    rw [if_neg h1, if_neg h2, if_neg h3, if_neg h4, if_neg h5, if_neg h6,
      if_neg h7]
    dsimp only
    rw [if_neg h8, hr]
  | ok p =>
    obtain ⟨ts, evs⟩ := p
    refine Or.inr (Or.inr
      ⟨({ resolver :=
            { projectSchemaUID := sys.resolver.projectSchemaUID
              lastShipTimestamp :=
                fun x => if x = a.fid then now
                         else sys.resolver.lastShipTimestamp x }
          tracker := ts },
        evs ++ [Event.ShipCreated a.fid a.uid a.refUID now]), ?_⟩)
    unfold onAttest
    rw [if_neg h1, if_neg h2, if_neg h3, if_neg h4, if_neg h5, if_neg h6,
      if_neg h7]
    dsimp only
    rw [if_neg h8, hr]

/-- C7: checks before effects.  (a) Whenever `onAttest` reverts with a
gate-level validation error (anything other than a propagated tracker
revert), no `recordShip` call was issued — and the revert means no state is
produced.  (b) In particular, a ship with 11 links (one over `MAX_LINKS`)
that passes the earlier checks reverts with `TooManyLinks` and issues no
tracker call, so the gate's `lastShipTimestamp` is never written.  (c) When
every gate check passes, exactly one `recordShip` call is issued. -/
theorem C7_checks_before_effects :
    (∀ (eas : Nat → Attestation) (sys : SystemState) (resolverAddr : Nat)
        (a : Attestation) (now : Nat) (e : ShipError),
      (onAttest eas sys resolverAddr a now).1 = .error e →
      (∀ te, e ≠ .TrackerRevert te) →
      (onAttest eas sys resolverAddr a now).2 = []) ∧
    (∀ (eas : Nat → Attestation) (sys : SystemState) (resolverAddr : Nat)
        (a : Attestation) (now : Nat),
      a.refUID ≠ 0 → _isValidProjectAttestation eas sys.resolver a.refUID →
      a.fid ≠ 0 → MIN_TEXT_LENGTH ≤ a.text.length →
      a.text.length ≤ MAX_TEXT_LENGTH → a.links.length = 11 →
      onAttest eas sys resolverAddr a now = (.error .TooManyLinks, [])) ∧
    (∀ (eas : Nat → Attestation) (sys : SystemState) (resolverAddr : Nat)
        (a : Attestation) (now : Nat),
      a.refUID ≠ 0 → _isValidProjectAttestation eas sys.resolver a.refUID →
      a.fid ≠ 0 → MIN_TEXT_LENGTH ≤ a.text.length →
      a.text.length ≤ MAX_TEXT_LENGTH → a.links.length ≤ MAX_LINKS →
      ¬(0 < sys.resolver.lastShipTimestamp a.fid ∧
          now - sys.resolver.lastShipTimestamp a.fid < MIN_SHIP_INTERVAL) →
      (onAttest eas sys resolverAddr a now).2 = [(a.fid, a.uid)]) := by
  refine ⟨?_, ?_, ?_⟩
  · intro eas sys resolverAddr a now e h hne
    rcases onAttest_shape eas sys resolverAddr a now with
      ⟨e', hEq, -⟩ | ⟨te, hEq⟩ | ⟨res, hEq⟩
    · rw [hEq]
    · rw [hEq] at h
      simp only [Except.error.injEq] at h
      exact absurd h.symm (hne te)
    · rw [hEq] at h
      simp at h
  · intro eas sys resolverAddr a now href hvalid hfid hmin hmax hlinks
    have hmin' : 30 ≤ a.text.length := hmin
    have hmax' : a.text.length ≤ 240 := hmax
    simp only [onAttest]
    rw [if_neg href, if_neg (not_not_intro hvalid), if_neg hfid,
      if_neg (by omega : ¬ a.text.length = 0),
      if_neg (by unfold MIN_TEXT_LENGTH; omega),
      if_neg (by unfold MAX_TEXT_LENGTH; omega),
      if_pos (by unfold MAX_LINKS; omega)]
  · intro eas sys resolverAddr a now href hvalid hfid hmin hmax hlinks hthr
    have hmin' : 30 ≤ a.text.length := hmin
    have hmax' : a.text.length ≤ 240 := hmax
    have hlinks' : a.links.length ≤ 10 := hlinks
    simp only [onAttest]
    rw [if_neg href, if_neg (not_not_intro hvalid), if_neg hfid,
      if_neg (by omega : ¬ a.text.length = 0),
      if_neg (by unfold MIN_TEXT_LENGTH; omega),
      if_neg (by unfold MAX_TEXT_LENGTH; omega),
      if_neg (by unfold MAX_LINKS; omega),
      if_neg hthr]
    cases hr : recordShip sys.tracker resolverAddr a.fid a.uid now with
    | error e => rfl
    | ok p => rfl

/-- Witness for `C7_checks_before_effects`: Scenario E — a ship with 11
links fails with `TooManyLinks` and the tracker-call trace is empty. -/
theorem C7_checks_before_effects_witness :
    aShipElevenLinks.links.length = 11 ∧
    onAttest eas0 sys0 9 aShipElevenLinks 44200 = (.error .TooManyLinks, []) :=
  ⟨by decide,
   C7_checks_before_effects.2.1 eas0 sys0 9 aShipElevenLinks 44200 (by decide)
     (by decide) (by decide) (by decide) (by decide) (by decide)⟩

/-- C8: a `recordShip` by a caller outside the resolver allow-list reverts
with `UnauthorizedResolver` and mutates nothing, for every identity and
event reference; `setResolverAuthorization` invoked by the owner sets the
allow-list entry of the resolver to the requested flag and emits
`ResolverAuthorizationChanged`; invoked by anyone else it reverts with the
`Ownable` error. -/
theorem C8_authorization :
    (∀ (st : TrackerState) (sender fid uid now : Nat) (g : Ghost),
      st.authorizedResolvers sender = false →
      recordShip st sender fid uid now = .error .UnauthorizedResolver ∧
      stepOp st g (.record sender fid uid now) = (st, g)) ∧
    (∀ (st : TrackerState) (resolver : Nat) (enabled : Bool),
      setResolverAuthorization st st.owner resolver enabled =
        .ok ({ st with authorizedResolvers :=
                 fun x => if x = resolver then enabled
                          else st.authorizedResolvers x },
             [Event.ResolverAuthorizationChanged resolver enabled])) ∧
    (∀ (st : TrackerState) (sender resolver : Nat) (enabled : Bool),
      sender ≠ st.owner →
      setResolverAuthorization st sender resolver enabled =
        .error .Unauthorized) := by
  refine ⟨?_, ?_, ?_⟩
  · intro st sender fid uid now g hauth
    have herr : recordShip st sender fid uid now = .error .UnauthorizedResolver := by
      unfold recordShip
      rw [if_pos (by simp [hauth])]
    exact ⟨herr, stepOp_record_error herr⟩
  · intro st resolver enabled
    unfold setResolverAuthorization
    rw [if_neg (fun hne => hne rfl)]
  · intro st sender resolver enabled hne
    unfold setResolverAuthorization
    rw [if_pos hne]

/-- Witness for `C8_authorization`: caller 8 is not authorized in `stAuth`
and is rejected; the owner (1) can flip the allow-list; caller 2 cannot. -/
theorem C8_authorization_witness :
    stAuth.authorizedResolvers 8 = false ∧
    recordShip stAuth 8 1 11 100 = .error .UnauthorizedResolver ∧
    (2 : Nat) ≠ stAuth.owner ∧
    setResolverAuthorization stAuth 2 9 true = .error .Unauthorized :=
  ⟨by decide,
   (C8_authorization.1 stAuth 8 1 11 100 Ghost.init (by decide)).1,
   by decide,
   C8_authorization.2.2 stAuth 2 9 true (by decide)⟩

/-- C9: if the gate's throttle admits a ship (first ship ever, or at least
`MIN_SHIP_INTERVAL` seconds elapsed) and the gate's recorded last time
equals the ledger's `lastShipTimestamp` (as when the gate is the only
writer), the subsequent `recordShip` can never revert with the ledger-level
`AlreadyShippedToday`: 86400 elapsed seconds force a strictly larger epoch
day. -/
theorem C9_admitted_ship_new_day (st : TrackerState) (sender fid uid now : Nat)
    (hle : (st.userData fid).lastShipTimestamp ≤ now)
    (hgate : ¬(0 < (st.userData fid).lastShipTimestamp ∧
        now - (st.userData fid).lastShipTimestamp < MIN_SHIP_INTERVAL)) :
    recordShip st sender fid uid now ≠ .error .AlreadyShippedToday := by
  intro h
  have hday : 0 < (st.userData fid).lastShipTimestamp →
      ¬ _isSameDay (st.userData fid).lastShipTimestamp now := by
    intro hpos hsame
    have hgap : (st.userData fid).lastShipTimestamp + 86400 ≤ now := by
      rcases not_and_or.mp hgate with hc | hc
      · exact absurd hpos hc
      · have : ¬ now - (st.userData fid).lastShipTimestamp < 86400 := hc
        omega
    have hlt : (st.userData fid).lastShipTimestamp / 86400 < now / 86400 := by
      have h1 : ((st.userData fid).lastShipTimestamp + 86400) / 86400 ≤ now / 86400 :=
        Nat.div_le_div_right hgap
      rw [Nat.add_div_right _ (by norm_num)] at h1
      omega
    have hsame' : (st.userData fid).lastShipTimestamp / 86400 = now / 86400 := hsame
    omega
  simp only [recordShip] at h
  split_ifs at h with h1 h2 h3 h4 h5 h6 h7 <;> simp at h
  · exact hday h4.1 h4.2
  · exact hday (Nat.pos_of_ne_zero h5) h7

/-- Witness for `C9_admitted_ship_new_day`: a ship exactly 86400 seconds
after the previous one (time 1000 → 87400) cannot hit the ledger's same-day
error. -/
theorem C9_admitted_ship_new_day_witness :
    (stOneShip.userData 1).lastShipTimestamp ≤ 87400 ∧
    ¬(0 < (stOneShip.userData 1).lastShipTimestamp ∧
        87400 - (stOneShip.userData 1).lastShipTimestamp < MIN_SHIP_INTERVAL) ∧
    recordShip stOneShip 7 1 12 87400 ≠ .error .AlreadyShippedToday :=
  ⟨by decide, by decide,
   C9_admitted_ship_new_day stOneShip 7 1 12 87400 (by decide) (by decide)⟩

/-- C10: `onRevoke` reverts with `RevocationNotSupported` on every input, so
no admitted ship is ever removed; and every tracker operation leaves the
stored `shipUIDs` of every identity an unchanged left segment of the new
value — the history is append-only. -/
theorem C10_append_only :
    (∀ (a : Attestation) (value : Nat),
      onRevoke a value = .error .RevocationNotSupported) ∧
    (∀ (st : TrackerState) (g : Ghost) (op : Op) (fid : Nat),
      ∃ rest, ((stepOp st g op).1.userData fid).shipUIDs =
        (st.userData fid).shipUIDs ++ rest) := by
  refine ⟨fun a value => rfl, ?_⟩
  intro st g op fid
  cases op with
  | record sender fid' uid t =>
    cases hrec : recordShip st sender fid' uid t with
    | error e => rw [stepOp_record_error hrec]; exact ⟨[], by simp⟩
    | ok p =>
      obtain ⟨st', evs⟩ := p
      obtain ⟨n, -, rfl⟩ := recordShip_ok_applyShip hrec
      rw [stepOp_record_ok hrec]
      by_cases hx : fid = fid'
      · subst hx; exact ⟨[uid], by simp [applyShip_userData_self]⟩
      · exact ⟨[], by simp [applyShip_userData_other _ _ _ _ _ _ hx]⟩
  | setAuth sender resolver authorized =>
    rw [(stepOp_setAuth_userData st g sender resolver authorized).1]
    exact ⟨[], by simp⟩

end Changelog
